import Mathlib

/-!
Verification development for the GraphQL class-type generator of
src/src/graphql/schemas/ParseClass.js.

JavaScript objects used as dictionaries are embedded as association lists
(`List (String × α)`) with first-match lookup; JS key deletion and key
assignment become `assocErase` and `assocSet`.  JS values are embedded as
the inductive `JValue`.  Asynchronous resolvers are embedded as pure
functions returning an `Except` result paired with the ordered trace of
storage-backend calls they issued: `await`-sequencing in the source becomes
explicit sequential matching, so a failing earlier step yields a trace
without the later calls.  Collaborators that are part of this repository
but outside the provided sources (../execute, ../typesCache, ../types) are
either universally quantified function parameters or definitions whose doc
comment starts with: Modelled from the spec.
-/

/-- First-match lookup in an association list, as JS property read. -/
def assocFind {α : Type} (l : List (String × α)) (k : String) : Option α :=
  match l with
  | [] => none
  | (k', v) :: rest => if k' = k then some v else assocFind rest k

/-- JS property assignment: replace the first binding of `k` in place,
append a new binding when absent. -/
def assocSet {α : Type} (l : List (String × α)) (k : String) (v : α) :
    List (String × α) :=
  match l with
  | [] => [(k, v)]
  | (k', v') :: rest =>
    if k' = k then (k', v) :: rest else (k', v') :: assocSet rest k v

/-- JS `delete obj[k]`: on the duplicate-free lists that embed JS objects
this removes the unique binding of `k`; it is defined as a filter so that
lookup-after-erase is `none` unconditionally. -/
def assocErase {α : Type} (l : List (String × α)) (k : String) :
    List (String × α) :=
  l.filter (fun kv => kv.1 ≠ k)

theorem assocFind_assocSet_same {α : Type} (l : List (String × α)) (k : String)
    (v : α) : assocFind (assocSet l k v) k = some v := by
  induction l with
  | nil => simp [assocSet, assocFind]
  | cons hd tl ih =>
    by_cases h : hd.1 = k
    · simp [assocSet, assocFind, h]
    · simp [assocSet, assocFind, h, ih]

theorem assocFind_assocSet_other {α : Type} (l : List (String × α))
    (k k' : String) (v : α) (hne : k' ≠ k) :
    assocFind (assocSet l k v) k' = assocFind l k' := by
  induction l with
  | nil => simp [assocSet, assocFind, Ne.symm hne]
  | cons hd tl ih =>
    by_cases h : hd.1 = k
    · subst h
      simp [assocSet, assocFind, Ne.symm hne]
    · by_cases h2 : hd.1 = k'
      · simp [assocSet, assocFind, h, h2, hne]
      · simp [assocSet, assocFind, h, h2, ih]

theorem assocFind_assocErase_same {α : Type} (l : List (String × α))
    (k : String) : assocFind (assocErase l k) k = none := by
  induction l with
  | nil => simp [assocErase, assocFind]
  | cons hd tl ih =>
    by_cases h : hd.1 = k
    · simpa [assocErase, assocFind, h] using ih
    · simpa [assocErase, assocFind, h] using ih

theorem assocFind_assocErase_other {α : Type} (l : List (String × α))
    (k k' : String) (hne : k' ≠ k) :
    assocFind (assocErase l k) k' = assocFind l k' := by
  induction l with
  | nil => simp [assocErase, assocFind]
  | cons hd tl ih =>
    by_cases h : hd.1 = k
    · subst h
      simpa [assocErase, assocFind, Ne.symm hne] using ih
    · by_cases h2 : hd.1 = k'
      · simp [assocErase, assocFind, h, h2, hne]
      · simpa [assocErase, assocFind, h, h2] using ih

/-- Embedded JavaScript values: the payloads flowing through the resolvers. -/
inductive JValue where
  | str (s : String)
  | num (n : Int)
  | bool (b : Bool)
  | null
  | obj (fields : List (String × JValue))
deriving Repr, BEq

/-- JS truthiness of an embedded value. -/
def JValue.truthy : JValue → Bool
  | .str s => s ≠ ""
  | .num n => n ≠ 0
  | .bool b => b
  | .null => false
  | .obj _ => true

/-- An input object as it arrives in `args.input`. -/
abbrev InputObj := List (String × JValue)

/-- Truthiness of `input[k]`: an absent key reads as `undefined`,
which is falsy. -/
def lookupTruthy (input : InputObj) (k : String) : Bool :=
  match assocFind input k with
  | some v => v.truthy
  | none => false

/-- Property read on an embedded object value (`undefined` when the value
is not an object or the key is absent). -/
def jlookup (v : JValue) (k : String) : Option JValue :=
  match v with
  | .obj fields => assocFind fields k
  | _ => none

/-- A backend field definition: its kind string (for example Number, String,
Pointer, Relation, GeoPoint) and, for Pointer and Relation kinds, the target
class name. -/
structure FieldDef where
  kind : String
  targetClass : Option String
deriving Repr, DecidableEq

/-- A class schema: map of field name to field definition. -/
structure ClassDef where
  fields : List (String × FieldDef)
deriving Repr, DecidableEq

/-- The whole backend schema: class name to class definition. -/
abbrev Schema := List (String × ClassDef)

/-- The identity of a GraphQL type as produced by the mappers.  Types of
referenced classes are identified by their class name, which is what the
process-wide type cache guarantees (one type instance per class name). -/
inductive GQLType where
  | nonNullID
  | gqlID
  | gqlString
  | gqlInt
  | scalarOf (kind : String)
  | objectTypeOf (className : String)
  | queryTypeOf (className : String)
  | queryResultTypeOf (className : String)
deriving Repr, DecidableEq

/-- A GraphQL field descriptor as the mappers build it.  `name` and
`description` are absent on descriptors that do not set them (the relation
branch returns the target find descriptor, which carries no name);
`hasResolve` records whether a resolver function is attached. -/
structure GField where
  name : Option String
  gtype : Option GQLType
  hasResolve : Bool
  description : Option String
deriving Repr, DecidableEq

/-- handleIdField: fields literally named objectId or id become a
non-nullable GraphQLID. -/
def handleIdField (fieldName : String) : Option GQLType :=
  if fieldName = "objectId" ∨ fieldName = "id" then some .nonNullID else none

/-- getFieldType: display string for the field kind. -/
def getFieldType (field : FieldDef) : String :=
  if field.kind = "Pointer" then
    "Pointer<" ++ (field.targetClass.getD "undefined") ++ ">"
  else field.kind

/-- The descriptor `getRelationField` returns: the find descriptor of the
target class (typed with the query-result connection type of the target) with the
relation resolver attached; it has no `name` property. -/
def relationFieldDescr (field : FieldDef) : GField :=
  let target := field.targetClass.getD "undefined"
  { name := none
    gtype := some (.queryResultTypeOf target)
    hasResolve := true
    description :=
      some ("Use this endpoint to get or query " ++ target ++ " objects") }

/-- graphQLField: the output-context mapper.  `tp` is the scalar mapper
`type` of ../types, a collaborator outside src/, kept universally
quantified.  A Relation field short-circuits to the relation find
descriptor; afterwards the id override applies, and a Pointer field then
overwrites the computed type with the object type of the target class. -/
def graphQLField (tp : FieldDef → Option GQLType) (fieldName : String)
    (field : FieldDef) : GField :=
  if field.kind = "Relation" then relationFieldDescr field
  else
    let g0 := match handleIdField fieldName with
      | some g => some g
      | none => tp field
    let gQLType := if field.kind = "Pointer" then
        some (.objectTypeOf (field.targetClass.getD "undefined"))
      else g0
    { name := some fieldName
      gtype := gQLType
      hasResolve := field.kind = "Pointer"
      description :=
        some ("Accessor for " ++ fieldName ++ " (" ++ getFieldType field ++ ")") }

/-- graphQLInputField: the input-context mapper (`itp` embeds `inputType`
of ../types).  Returns `none` (the omit signal) when neither the id
override nor the collaborator yields a type. -/
def graphQLInputField (itp : FieldDef → Option GQLType) (fieldName : String)
    (field : FieldDef) : Option GField :=
  let gQLType := match handleIdField fieldName with
    | some g => some g
    | none => itp field
  match gQLType with
  | none => none
  | some g =>
    some { name := some fieldName
           gtype := some g
           hasResolve := false
           description :=
             some ("Setter for " ++ fieldName ++ " (" ++ getFieldType field ++ ")") }

/-- graphQLQueryField: the filter-context mapper (`qtp` embeds `queryType`
of ../types).  After the undefined check, a Pointer field overwrites the
computed type with the query input type of the target class. -/
def graphQLQueryField (qtp : FieldDef → Option GQLType) (fieldName : String)
    (field : FieldDef) : Option GField :=
  let g0 := match handleIdField fieldName with
    | some g => some g
    | none => qtp field
  match g0 with
  | none => none
  | some g =>
    let gQLType := if field.kind = "Pointer" then
        GQLType.queryTypeOf (field.targetClass.getD "undefined")
      else g
    some { name := some fieldName
           gtype := some gQLType
           hasResolve := false
           description :=
             some ("Query for " ++ fieldName ++ " (" ++ field.kind ++ ")") }

/-- The reserved field names filtered out of input contexts. -/
def reservedFieldNames : List String := ["objectId", "createdAt", "updatedAt"]

/-- The synthetic global-identity field added to object types. -/
def idInitialField : GField :=
  { name := none
    gtype := some .nonNullID
    hasResolve := false
    description := some "A globaly unique identifier." }

/-- The synthetic session-token field added when the class is _User. -/
def sessionTokenField : GField :=
  { name := none
    gtype := some .gqlString
    hasResolve := false
    description :=
      some "The session token for the user, set only when it makes sense." }

/-- The client-correlation-token field appended to the add and update input
types. -/
def clientMutationIdField : GField :=
  { name := none
    gtype := some .gqlString
    hasResolve := false
    description := none }

/-- One reduce step of ParseClass.buildFields. -/
def buildFieldsStep (mapper : String → FieldDef → Option GField)
    (filterRes : Bool) (memo : List (String × GField))
    (entry : String × FieldDef) : List (String × GField) :=
  if filterRes ∧ entry.1 ∈ reservedFieldNames then memo
  else
    match mapper entry.1 entry.2 with
    | none => memo
    | some g => assocSet memo entry.1 g

/-- ParseClass.buildFields.  The Bool records whether the missing-class
diagnostic was logged; a missing class yields `none` (the source returns
undefined after warning) instead of raising.  The initial map holds the
synthetic id field when building an object type and the synthetic
session-token field when the class is _User. -/
def buildFields (schema : Schema) (className : String)
    (mapper : String → FieldDef → Option GField)
    (filterRes : Bool) (isObject : Bool) :
    Bool × Option (List (String × GField)) :=
  match assocFind schema className with
  | none => (true, none)
  | some cls =>
    let initial : List (String × GField) :=
      (if isObject then [("id", idInitialField)] else []) ++
      (if className = "_User" then [("sessionToken", sessionTokenField)] else [])
    (false, some (cls.fields.foldl (buildFieldsStep mapper filterRes) initial))

/-- The field set of the add-input type (ParseClass.graphQLInputConfig):
buildFields with the input mapper and reserved filtering, then the
client-correlation-token field is assigned. -/
def addInputFields (itp : FieldDef → Option GQLType) (schema : Schema)
    (className : String) : Option (List (String × GField)) :=
  match (buildFields schema className (graphQLInputField itp) true false).2 with
  | none => none
  | some fields => some (assocSet fields "clientMutationId" clientMutationIdField)

/-- The field set of the object type (ParseClass.graphQLConfig): buildFields
with the output mapper, no reserved filtering, isObject set.  The output
mapper always returns a descriptor, so it never omits. -/
def graphQLConfigFields (tp : FieldDef → Option GQLType) (schema : Schema)
    (className : String) : Bool × Option (List (String × GField)) :=
  buildFields schema className (fun n f => some (graphQLField tp n f)) false true

/-- One compilation pass over a list of class names: the object-type field
set is built for every class name in turn (getParseClassQueryFields drives
loadClass over schema.__classNames); a missing class contributes a logged
diagnostic and a degenerate entry but the pass continues. -/
def compilePass (tp : FieldDef → Option GQLType) (schema : Schema)
    (classNames : List String) :
    List (String × (Bool × Option (List (String × GField)))) :=
  classNames.map (fun cn => (cn, graphQLConfigFields tp schema cn))

/-- The display name: a single leading underscore is stripped. -/
def displayNameOf (className : String) : String :=
  if className.startsWith "_" then className.drop 1 else className

/-- Modelled from the spec: `getGloballyUniqueId` of ../execute (not under
src/).  The spec fixes the global-id format as base64 of
class_name + ":" + local_id or an equivalent reversible encoding; the
encoding is modelled as the plain reversible concatenation with ":". -/
def getGloballyUniqueId (className : String) (objectId : String) : String :=
  className ++ ":" ++ objectId

/-- A decoded global id. -/
structure ParsedID where
  className : String
  objectId : String
deriving Repr, DecidableEq

/-- Modelled from the spec: `parseID` of ../execute (not under src/), the
inverse of `getGloballyUniqueId`: the class name is the part before the
first ":", the local id the rest. -/
def parseID (s : String) : ParsedID :=
  match s.splitOn ":" with
  | [] => { className := "", objectId := "" }
  | c :: rest => { className := c, objectId := String.intercalate ":" rest }

/-- getObjectId: resolves the addressed object id from a mutation input.
Neither id truthy throws the missing-identifier error; a truthy local
objectId wins, is returned as is and its key deleted; otherwise the global
id is decoded (it must be a string to be decodable) and its key deleted.
Returns the id together with the mutated input. -/
def getObjectId (input : InputObj) : Except String (JValue × InputObj) :=
  if ¬ lookupTruthy input "id" ∧ ¬ lookupTruthy input "objectId" then
    .error "id or objectId are required"
  else if lookupTruthy input "objectId" then
    match assocFind input "objectId" with
    | some v => .ok (v, assocErase input "objectId")
    | none => .error "unreachable: truthy lookup on absent key"
  else
    match assocFind input "id" with
    | some (.str s) => .ok (.str (parseID s).objectId, assocErase input "id")
    | _ => .error "TypeError: global id is not a string"

/-- transformInput tagging of one value: object values of Pointer and
GeoPoint declared fields get their __type property set; other values are
left as they are. -/
def tagValue (fieldDef : Option FieldDef) (v : JValue) : JValue :=
  match fieldDef, v with
  | some fd, .obj kvs =>
    if fd.kind = "Pointer" then .obj (assocSet kvs "__type" (.str "Pointer"))
    else if fd.kind = "GeoPoint" then
      .obj (assocSet kvs "__type" (.str "GeoPoint"))
    else .obj kvs
  | _, v => v

/-- transformInput: re-tags Pointer and GeoPoint shaped values from the
class schema.  Destructuring `fields` from an absent class definition is a
TypeError in the source. -/
def transformInput (input : InputObj) (cls : Option ClassDef) :
    Except String InputObj :=
  match cls with
  | none => .error "TypeError: cannot destructure fields of undefined"
  | some c =>
    .ok (input.map (fun kv => (kv.1, tagValue (assocFind c.fields kv.1) kv.2)))

/-- The storage-backend and read-path calls a resolver can issue, in the
order it issued them. -/
inductive StorageCall where
  | restCreate (className : String) (input : InputObj)
  | restUpdate (className : String) (objectId : JValue) (input : InputObj)
  | restDel (className : String) (objectId : JValue)
  | runGetCall (className : String) (objectId : JValue)
deriving Repr, BEq

/-- The external storage collaborators (rest and runGet of ../execute),
kept abstract: the resolvers are verified for every behaviour of them. -/
structure Backend where
  restCreate : String → InputObj → Except String JValue
  restUpdate : String → JValue → InputObj → Except String Unit
  restDel : String → JValue → Except String Unit
  runGet : String → JValue → Except String JValue

/-- The mutation payload: the affected object and the echoed
client-correlation token. -/
structure MutationResult where
  object : JValue
  clientMutationId : Option JValue
deriving Repr, BEq

/-- create.resolve: transform the input, strip the correlation token,
create, then re-fetch the created object through the read path by the id
of the create response, and echo the token.  (The _User session-token auth
swap only replaces the authorization context handed to the re-fetch and is
abstracted away by the opaque Backend.) -/
def createResolve (b : Backend) (schema : Schema) (className : String)
    (input0 : InputObj) : Except String MutationResult × List StorageCall :=
  match transformInput input0 (assocFind schema className) with
  | .error e => (.error e, [])
  | .ok input1 =>
    let clientMutationId := assocFind input1 "clientMutationId"
    let input2 := assocErase input1 "clientMutationId"
    match b.restCreate className input2 with
    | .error e => (.error e, [.restCreate className input2])
    | .ok res =>
      match jlookup res "response" with
      | none => (.error "TypeError: cannot read objectId of undefined",
                 [.restCreate className input2])
      | some resp =>
        let objectId := (jlookup resp "objectId").getD .null
        match b.runGet className objectId with
        | .error e => (.error e,
                       [.restCreate className input2,
                        .runGetCall className objectId])
        | .ok object =>
          (.ok { object := object, clientMutationId := clientMutationId },
           [.restCreate className input2, .runGetCall className objectId])

/-- update.resolve: resolve the id (may throw before any storage call),
transform, strip the token, forward the partial update, then re-fetch. -/
def updateResolve (b : Backend) (schema : Schema) (className : String)
    (input0 : InputObj) : Except String MutationResult × List StorageCall :=
  match getObjectId input0 with
  | .error e => (.error e, [])
  | .ok (objectId, input1) =>
    match transformInput input1 (assocFind schema className) with
    | .error e => (.error e, [])
    | .ok input2 =>
      let clientMutationId := assocFind input2 "clientMutationId"
      let input3 := assocErase input2 "clientMutationId"
      match b.restUpdate className objectId input3 with
      | .error e => (.error e, [.restUpdate className objectId input3])
      | .ok _ =>
        match b.runGet className objectId with
        | .error e => (.error e,
                       [.restUpdate className objectId input3,
                        .runGetCall className objectId])
        | .ok object =>
          (.ok { object := object, clientMutationId := clientMutationId },
           [.restUpdate className objectId input3,
            .runGetCall className objectId])

/-- destroy.resolve: resolve the id (may throw before any storage call),
re-fetch the object first, and only after the fetch succeeds issue the
delete; the pre-deletion snapshot and the echoed token are returned. -/
def destroyResolve (b : Backend) (className : String) (input0 : InputObj) :
    Except String MutationResult × List StorageCall :=
  match getObjectId input0 with
  | .error e => (.error e, [])
  | .ok (objectId, input1) =>
    let clientMutationId := assocFind input1 "clientMutationId"
    match b.runGet className objectId with
    | .error e => (.error e, [.runGetCall className objectId])
    | .ok object =>
      match b.restDel className objectId with
      | .error e => (.error e,
                     [.runGetCall className objectId,
                      .restDel className objectId])
      | .ok _ =>
        (.ok { object := object, clientMutationId := clientMutationId },
         [.runGetCall className objectId, .restDel className objectId])

/-- The find arguments: filter plus pagination controls, and the
redirect marker the relation resolver forces. -/
structure FindArgs where
  whereQ : Option JValue
  first : Option Nat
  last : Option Nat
  after : Option String
  before : Option String
  redirectClassNameForKey : Option String
deriving Repr, BEq

/-- The pagination envelope handed back by find and relation resolvers. -/
structure Connection where
  nodes : List JValue
  edges : List (JValue × String)
  hasNextPage : Bool
  hasPreviousPage : Bool
deriving Repr, BEq

/-- Modelled from the spec: `connectionResultsArray` of ../execute (not
under src/).  The spec says results are wrapped as a Connection (ordered
node sequence possibly truncated to a page window, parallel edges, page
info), capping page size at the fixed maximum regardless of requested
size: the window is the requested forward page size capped at maxLimit. -/
def connectionResultsArray (results : List JValue) (args : FindArgs)
    (maxLimit : Nat) : Connection :=
  let limit := min (args.first.getD maxLimit) maxLimit
  { nodes := results.take limit
    edges := (results.take limit).map (fun r => (r, "cursor"))
    hasNextPage := limit < results.length
    hasPreviousPage := false }

/-- find.resolve of loadClass: run the find and wrap the results with the
page cap of 100.  `runFindFn` embeds runFind of ../execute and stays
abstract. -/
def findResolve (runFindFn : String → FindArgs → List JValue)
    (className : String) (args : FindArgs) : Connection :=
  connectionResultsArray (runFindFn className args) args 100

/-- String property read with the JS stringification of undefined. -/
def jgetStr (v : JValue) (k : String) : String :=
  match jlookup v k with
  | some (.str s) => s
  | _ => "undefined"

/-- The $relatedTo filter the relation resolver builds: a Pointer to the
parent object and the field name as key. -/
def relatedToQuery (parentClassName parentObjectId fieldName : String) :
    JValue :=
  .obj [("$relatedTo",
    .obj [("object",
            .obj [("__type", .str "Pointer"),
                  ("className", .str parentClassName),
                  ("objectId", .str parentObjectId)]),
          ("key", .str fieldName)])]

/-- The global-id tagging the relation resolver applies to one result. -/
def tagResultId (r : JValue) : JValue :=
  match r with
  | .obj kvs =>
    .obj (assocSet kvs "id"
      (.str (getGloballyUniqueId (jgetStr (.obj kvs) "className")
                                 (jgetStr (.obj kvs) "objectId"))))
  | v => v

/-- What one relation-resolver invocation did: the class name, arguments
and filter it handed to runFind, and the connection it returned. -/
structure RelOutcome where
  calledClassName : String
  calledArgs : FindArgs
  calledQuery : JValue
  connection : Connection

/-- The resolver getRelationField attaches to a relation field: build the
$relatedTo filter against the parent, force the redirect marker to the
field name, run the find under the class of the parent, tag every result with
its global id, and wrap with the page cap of 100.  `runFindFn` embeds
runFind of ../execute (taking the override filter) and stays abstract. -/
def relationResolve (runFindFn : String → FindArgs → JValue → List JValue)
    (fieldName : String) (parentClassName parentObjectId : String)
    (args : FindArgs) : RelOutcome :=
  let query := relatedToQuery parentClassName parentObjectId fieldName
  let args1 := { args with redirectClassNameForKey := some fieldName }
  let results := runFindFn parentClassName args1 query
  let results1 := results.map tagResultId
  { calledClassName := parentClassName
    calledArgs := args1
    calledQuery := query
    connection := connectionResultsArray results1 args1 100 }

/-- The heap-and-cache state that tracks reference identity of everything
loadClass allocates.  References are allocation numbers: two values are
reference-equal exactly when their numbers are equal.  `cache` is the
process-wide types cache (class name to the ParseClass instance reference),
`heap` holds the six lazily memoized type-object slots of each instance (object,
input, update-input, query-input, query-result, mutation-result, in the
order loadClass materializes them), and `factoryCalls` logs every factory
invocation the cache made. -/
structure CacheState where
  nextRef : Nat
  cache : List (String × Nat)
  heap : List (String × List (Option Nat))
  factoryCalls : List String
deriving Repr, DecidableEq

/-- A freshly constructed ParseClass instance: all six memo slots empty
(the constructor builds no type objects). -/
def newParseClassSlots : List (Option Nat) := List.replicate 6 none

/-- Modelled from the spec: `getOrElse` of ../typesCache (not under src/).
The spec contract: on first call for a class name, invoke the factory
exactly once, store the result keyed by class name and return it; every
subsequent call returns the already-cached value.  The factory here is
`new ParseClass(className, schema)`, which performs no reentrant cache
call (recursion into referenced classes is deferred to lazy field
thunks), so the reentrancy clause is not exercised by this factory. -/
def getOrElse (className : String) (s : CacheState) : Nat × CacheState :=
  match assocFind s.cache className with
  | some r => (r, s)
  | none =>
    (s.nextRef,
     { nextRef := s.nextRef + 1
       cache := assocSet s.cache className s.nextRef
       heap := assocSet s.heap className newParseClassSlots
       factoryCalls := s.factoryCalls ++ [className] })

/-- The six memoized type accessors (graphQLObjectType and friends), run in
loadClass order: each empty slot allocates a fresh type object and caches
it on the instance, each filled slot returns the cached reference. -/
def fillSlots (next : Nat) (slots : List (Option Nat)) :
    List Nat × List (Option Nat) × Nat :=
  match slots with
  | [] => ([], [], next)
  | some r :: rest =>
    let f := fillSlots next rest
    (r :: f.1, some r :: f.2.1, f.2.2)
  | none :: rest =>
    let f := fillSlots (next + 1) rest
    (next :: f.1, some next :: f.2.1, f.2.2)

/-- The reference identities of everything one loadClass call returns: the
bundle record itself (built fresh by the final object literal), the cached
ParseClass instance, the six member type objects, and the destroy-input
type (built fresh inside the destroy descriptor on every call). -/
structure BundleRefs where
  bundleRef : Nat
  parseClassRef : Nat
  typeRefs : List Nat
  destroyInputRef : Nat
deriving Repr, DecidableEq

/-- loadClass, reference view: look the ParseClass up in the cache (running
the factory when absent), materialize the six memoized types, then allocate
the fresh destroy-input type and the fresh bundle record. -/
def loadClass (className : String) (s : CacheState) :
    BundleRefs × CacheState :=
  let g := getOrElse className s
  let slots := (assocFind g.2.heap className).getD newParseClassSlots
  let f := fillSlots g.2.nextRef slots
  ({ bundleRef := f.2.2 + 1
     parseClassRef := g.1
     typeRefs := f.1
     destroyInputRef := f.2.2 },
   { nextRef := f.2.2 + 2
     cache := g.2.cache
     heap := assocSet g.2.heap className f.2.1
     factoryCalls := g.2.factoryCalls })

/-- The state at the start of a compilation pass: empty cache, no
allocations. -/
def initCacheState : CacheState :=
  { nextRef := 0, cache := [], heap := [], factoryCalls := [] }

theorem fillSlots_map_some (rs : List Nat) (n : Nat) :
    fillSlots n (rs.map some) = (rs, rs.map some, n) := by
  induction rs generalizing n with
  | nil => rfl
  | cons hd tl ih => simp [fillSlots, ih]

theorem fillSlots_slots_eq (sl : List (Option Nat)) (n : Nat) :
    (fillSlots n sl).2.1 = (fillSlots n sl).1.map some := by
  induction sl generalizing n with
  | nil => rfl
  | cons hd tl ih =>
    cases hd with
    | none => simp [fillSlots, ih]
    | some r => simp [fillSlots, ih]

theorem getOrElse_find (cn : String) (s : CacheState) :
    assocFind (getOrElse cn s).2.cache cn = some (getOrElse cn s).1 := by
  cases h : assocFind s.cache cn with
  | none => simp [getOrElse, h, assocFind_assocSet_same]
  | some r => simp [getOrElse, h]

theorem getOrElse_of_find (cn : String) (s : CacheState) (r : Nat)
    (h : assocFind s.cache cn = some r) : getOrElse cn s = (r, s) := by
  simp [getOrElse, h]

theorem loadClass_cache_find (cn : String) (s : CacheState) :
    assocFind (loadClass cn s).2.cache cn =
      some (loadClass cn s).1.parseClassRef := by
  simpa [loadClass] using getOrElse_find cn s

theorem loadClass_heap_find (cn : String) (s : CacheState) :
    assocFind (loadClass cn s).2.heap cn =
      some ((loadClass cn s).1.typeRefs.map some) := by
  simp [loadClass, assocFind_assocSet_same, fillSlots_slots_eq]

theorem loadClass_nextRef (cn : String) (s : CacheState) :
    (loadClass cn s).2.nextRef = (loadClass cn s).1.bundleRef + 1 := by
  simp [loadClass]

theorem loadClass_of_cached (cn : String) (s1 : CacheState) (c : Nat)
    (refs : List Nat) (h1 : assocFind s1.cache cn = some c)
    (h2 : assocFind s1.heap cn = some (refs.map some)) :
    loadClass cn s1 =
      ({ bundleRef := s1.nextRef + 1
         parseClassRef := c
         typeRefs := refs
         destroyInputRef := s1.nextRef },
       { nextRef := s1.nextRef + 2
         cache := s1.cache
         heap := assocSet s1.heap cn (refs.map some)
         factoryCalls := s1.factoryCalls }) := by
  simp [loadClass, getOrElse_of_find cn s1 c h1, h2, fillSlots_map_some]

/-- C1 (amended): calling loadClass twice for the same class name invokes
the cache factory exactly once (on the first call from an uncached state,
and never again on later calls), and the second call returns the same
ParseClass instance and the same six member type objects by reference; the
bundle record loadClass returns is however rebuilt fresh on every call, so
the two returned TypeBundle records themselves are not reference-equal. -/
theorem loadClass_memoized (cn : String) (s : CacheState) :
    (loadClass cn (loadClass cn s).2).1.typeRefs =
        (loadClass cn s).1.typeRefs ∧
    (loadClass cn (loadClass cn s).2).1.parseClassRef =
        (loadClass cn s).1.parseClassRef ∧
    (loadClass cn (loadClass cn s).2).1.bundleRef ≠
        (loadClass cn s).1.bundleRef ∧
    (loadClass cn (loadClass cn s).2).2.factoryCalls =
        (loadClass cn s).2.factoryCalls ∧
    (assocFind s.cache cn = none →
      (loadClass cn s).2.factoryCalls = s.factoryCalls ++ [cn]) ∧
    (∀ r, assocFind s.cache cn = some r →
      (loadClass cn s).2.factoryCalls = s.factoryCalls) := by
  have hsec := loadClass_of_cached cn (loadClass cn s).2
    (loadClass cn s).1.parseClassRef (loadClass cn s).1.typeRefs
    (loadClass_cache_find cn s) (loadClass_heap_find cn s)
  refine ⟨?_, ?_, ?_, ?_, ?_, ?_⟩
  · rw [hsec]
  · rw [hsec]
  · rw [hsec]
    have hn := loadClass_nextRef cn s
    simp only []
    omega
  · rw [hsec]
  · intro h
    simp [loadClass, getOrElse, h]
  · intro r h
    simp [loadClass, getOrElse_of_find cn s r h]

/-- C1 witness: on a concrete class name from the initial state, the second
call preserves the six member type references and the first call logged
exactly one factory invocation. -/
theorem loadClass_memoized_witness :
    (loadClass "Foo" (loadClass "Foo" initCacheState).2).1.typeRefs =
        (loadClass "Foo" initCacheState).1.typeRefs ∧
    (loadClass "Foo" initCacheState).2.factoryCalls =
        initCacheState.factoryCalls ++ ["Foo"] :=
  ⟨(loadClass_memoized "Foo" initCacheState).1,
   (loadClass_memoized "Foo" initCacheState).2.2.2.2.1 rfl⟩

/-- C1 counterexample: at the concrete class name Foo, starting from the
state of a fresh compilation pass, the records returned by two consecutive
loadClass calls are distinct objects (their allocation references differ),
so the claim that the two calls return the identical, reference-equal
TypeBundle is false as stated. -/
theorem loadClass_bundle_not_reference_equal :
    (loadClass "Foo" (loadClass "Foo" initCacheState).2).1 ≠
      (loadClass "Foo" initCacheState).1 := by
  decide

/-- A concrete storage backend used to instantiate hypothesis-bearing
theorems. -/
def witnessBackend : Backend :=
  { restCreate := fun _ _ =>
      .ok (.obj [("response", .obj [("objectId", .str "abc")])])
    restUpdate := fun _ _ _ => .ok ()
    restDel := fun _ _ => .ok ()
    runGet := fun _ _ => .ok (.obj [("objectId", .str "abc"),
                                    ("name", .str "x")]) }

/-- C2: with an input whose id and objectId are both absent (or falsy, as
the source tests truthiness), update and destroy fail with the
missing-identifier error and their storage-call trace is empty: no
rest.update, rest.del or runGet is issued, for every backend behaviour. -/
theorem missing_identifier_no_storage_call (b : Backend) (schema : Schema)
    (className : String) (input : InputObj)
    (hid : lookupTruthy input "id" = false)
    (hoid : lookupTruthy input "objectId" = false) :
    updateResolve b schema className input =
      (.error "id or objectId are required", []) ∧
    destroyResolve b className input =
      (.error "id or objectId are required", []) := by
  have hg : getObjectId input = .error "id or objectId are required" := by
    simp [getObjectId, hid, hoid]
  exact ⟨by simp [updateResolve, hg], by simp [destroyResolve, hg]⟩

/-- C2 witness: a concrete update call whose input carries only a name
field errors without touching the backend. -/
theorem missing_identifier_no_storage_call_witness :
    updateResolve witnessBackend [] "Foo" [("name", .str "x")] =
      (.error "id or objectId are required", []) :=
  (missing_identifier_no_storage_call witnessBackend [] "Foo"
    [("name", .str "x")] rfl rfl).1

/-- C5: for a destroy invocation carrying an id, the trace is either the
fetch alone or the fetch followed by the delete (the delete never starts
before the fetch completes); a failing fetch yields a trace without the
delete; and a successful destroy returns the pre-deletion snapshot
fetched by runGet together with the echoed correlation token. -/
theorem destroy_fetch_before_delete (b : Backend) (className : String)
    (input : InputObj) (objectId : JValue) (input1 : InputObj)
    (h : getObjectId input = .ok (objectId, input1)) :
    ((destroyResolve b className input).2 =
        [.runGetCall className objectId] ∨
     (destroyResolve b className input).2 =
        [.runGetCall className objectId, .restDel className objectId]) ∧
    (∀ e, b.runGet className objectId = .error e →
      destroyResolve b className input =
        (.error e, [.runGetCall className objectId])) ∧
    (∀ mr, (destroyResolve b className input).1 = .ok mr →
      b.runGet className objectId = .ok mr.object ∧
      mr.clientMutationId = assocFind input1 "clientMutationId" ∧
      (destroyResolve b className input).2 =
        [.runGetCall className objectId, .restDel className objectId]) := by
  cases hget : b.runGet className objectId with
  | error e =>
    refine ⟨Or.inl ?_, ?_, ?_⟩
    · simp [destroyResolve, h, hget]
    · intro e' he'
      simp [hget] at he'
      subst he'
      simp [destroyResolve, h, hget]
    · intro mr hmr
      simp [destroyResolve, h, hget] at hmr
  | ok o =>
    cases hdel : b.restDel className objectId with
    | error e =>
      refine ⟨Or.inr ?_, ?_, ?_⟩
      · simp [destroyResolve, h, hget, hdel]
      · intro e' he'
        simp [hget] at he'
      · intro mr hmr
        simp [destroyResolve, h, hget, hdel] at hmr
    | ok u =>
      refine ⟨Or.inr ?_, ?_, ?_⟩
      · simp [destroyResolve, h, hget, hdel]
      · intro e' he'
        simp [hget] at he'
      · intro mr hmr
        simp [destroyResolve, h, hget, hdel] at hmr
        subst hmr
        simp [destroyResolve, h, hget, hdel]

/-- C5 witness: a concrete destroy by objectId against the concrete
backend fetches first, then deletes, and returns the fetched snapshot. -/
theorem destroy_fetch_before_delete_witness :
    witnessBackend.runGet "Foo" (.str "abc") =
      .ok (.obj [("objectId", .str "abc"), ("name", .str "x")]) ∧
    (destroyResolve witnessBackend "Foo" [("objectId", .str "abc")]).2 =
      [.runGetCall "Foo" (.str "abc"), .restDel "Foo" (.str "abc")] :=
  ⟨((destroy_fetch_before_delete witnessBackend "Foo"
      [("objectId", .str "abc")] (.str "abc") [] rfl).2.2
      { object := .obj [("objectId", .str "abc"), ("name", .str "x")]
        clientMutationId := none } rfl).1,
   ((destroy_fetch_before_delete witnessBackend "Foo"
      [("objectId", .str "abc")] (.str "abc") [] rfl).2.2
      { object := .obj [("objectId", .str "abc"), ("name", .str "x")]
        clientMutationId := none } rfl).2.2⟩

/-- C3: whatever page size the caller requests (first = 500 included) and
whatever result list the backend returns, the Connection built by
find.resolve has at most 100 nodes, and so does the Connection built by
the relation resolver, which uses the same cap. -/
theorem find_page_cap (runFindFn : String → FindArgs → List JValue)
    (relFindFn : String → FindArgs → JValue → List JValue)
    (className fieldName parentClassName parentObjectId : String)
    (args : FindArgs) :
    (findResolve runFindFn className args).nodes.length ≤ 100 ∧
    (relationResolve relFindFn fieldName parentClassName parentObjectId
        args).connection.nodes.length ≤ 100 := by
  constructor
  · calc (findResolve runFindFn className args).nodes.length
        ≤ min (args.first.getD 100) 100 := by
          simp [findResolve, connectionResultsArray, List.length_take]
      _ ≤ 100 := Nat.min_le_right _ _
  · calc (relationResolve relFindFn fieldName parentClassName parentObjectId
            args).connection.nodes.length
        ≤ min (args.first.getD 100) 100 := by
          simp [relationResolve, connectionResultsArray, List.length_take]
      _ ≤ 100 := Nat.min_le_right _ _

theorem assocFind_map {α β : Type} (f : String → α → β)
    (l : List (String × α)) (k : String) :
    assocFind (l.map fun kv => (kv.1, f kv.1 kv.2)) k =
      (assocFind l k).map (f k) := by
  induction l with
  | nil => rfl
  | cons hd tl ih =>
    by_cases h : hd.1 = k
    · simp [assocFind, h]
    · simp [assocFind, h, ih]

theorem tagValue_str (o : Option FieldDef) (s : String) :
    tagValue o (.str s) = .str s := by
  cases o <;> rfl

theorem assocFind_map_tag (cf : List (String × FieldDef)) (l : InputObj)
    (k : String) :
    assocFind (l.map fun kv => (kv.1, tagValue (assocFind cf kv.1) kv.2)) k =
      (assocFind l k).map (tagValue (assocFind cf k)) := by
  induction l with
  | nil => rfl
  | cons hd tl ih =>
    by_cases h : hd.1 = k
    · simp [assocFind, h]
    · simp [assocFind, h, ih]

/-- C6: for every backend behaviour, every create invocation on a class
present in the schema with a (string) correlation token in its input
forwards to rest.create an input from which clientMutationId has been
removed; and on success the returned object is the one re-fetched through
the read path by the objectId of the create response (not the input echo),
with the correlation token echoed back unchanged. -/
theorem create_strips_token_and_refetches (b : Backend) (schema : Schema)
    (className : String) (input0 : InputObj) (cls : ClassDef) (t : String)
    (hcls : assocFind schema className = some cls)
    (htok : assocFind input0 "clientMutationId" = some (.str t)) :
    (∀ inp, .restCreate className inp ∈
        (createResolve b schema className input0).2 →
      assocFind inp "clientMutationId" = none) ∧
    (∀ mr, (createResolve b schema className input0).1 = .ok mr →
      mr.clientMutationId = some (.str t) ∧
      ∃ res resp,
        b.restCreate className
          (assocErase
            (input0.map fun kv =>
              (kv.1, tagValue (assocFind cls.fields kv.1) kv.2))
            "clientMutationId") = .ok res ∧
        jlookup res "response" = some resp ∧
        b.runGet className ((jlookup resp "objectId").getD .null) =
          .ok mr.object) := by
  have h1 : transformInput input0 (assocFind schema className) =
      .ok (input0.map fun kv =>
        (kv.1, tagValue (assocFind cls.fields kv.1) kv.2)) := by
    simp [transformInput, hcls]
  have htok1 : assocFind
      (input0.map fun kv =>
        (kv.1, tagValue (assocFind cls.fields kv.1) kv.2))
      "clientMutationId" = some (.str t) := by
    rw [assocFind_map_tag, htok]
    simp [tagValue_str]
  cases hc : b.restCreate className
      (assocErase
        (input0.map fun kv =>
          (kv.1, tagValue (assocFind cls.fields kv.1) kv.2))
        "clientMutationId") with
  | error e =>
    constructor
    · intro inp hmem
      simp [createResolve, h1, hc] at hmem
      subst hmem
      exact assocFind_assocErase_same _ _
    · intro mr hmr
      simp [createResolve, h1, hc] at hmr
  | ok res =>
    cases hr : jlookup res "response" with
    | none =>
      constructor
      · intro inp hmem
        simp [createResolve, h1, hc, hr] at hmem
        subst hmem
        exact assocFind_assocErase_same _ _
      · intro mr hmr
        simp [createResolve, h1, hc, hr] at hmr
    | some resp =>
      cases hg : b.runGet className ((jlookup resp "objectId").getD .null) with
      | error e =>
        constructor
        · intro inp hmem
          simp [createResolve, h1, hc, hr, hg] at hmem
          subst hmem
          exact assocFind_assocErase_same _ _
        · intro mr hmr
          simp [createResolve, h1, hc, hr, hg] at hmr
      | ok o =>
        constructor
        · intro inp hmem
          simp [createResolve, h1, hc, hr, hg] at hmem
          subst hmem
          exact assocFind_assocErase_same _ _
        · intro mr hmr
          simp [createResolve, h1, hc, hr, hg] at hmr
          subst hmr
          exact ⟨by simpa using htok1, res, resp, by simp [hc], by simp [hr],
                 by simp [hg]⟩

/-- A concrete schema with one class Foo holding one String field. -/
def fooSchema : Schema := [("Foo", { fields := [("name", { kind := "String", targetClass := none })] })]

/-- C6 witness: a concrete create on class Foo with token tok succeeds and
echoes the token on the re-fetched object. -/
theorem create_strips_token_and_refetches_witness :
    MutationResult.clientMutationId
      { object := .obj [("objectId", .str "abc"), ("name", .str "x")]
        clientMutationId := some (.str "tok") } = some (.str "tok") :=
  ((create_strips_token_and_refetches witnessBackend fooSchema "Foo"
      [("name", .str "x"), ("clientMutationId", .str "tok")]
      { fields := [("name", { kind := "String", targetClass := none })] }
      "tok" rfl rfl).2
    { object := .obj [("objectId", .str "abc"), ("name", .str "x")]
      clientMutationId := some (.str "tok") } rfl).1

theorem tagResultId_id (kvs : List (String × JValue)) :
    jlookup (tagResultId (.obj kvs)) "id" =
      some (.str (getGloballyUniqueId (jgetStr (.obj kvs) "className")
                                      (jgetStr (.obj kvs) "objectId"))) := by
  simp [tagResultId, jlookup, assocFind_assocSet_same]

/-- C7: the relation resolver hands runFind a $relatedTo filter holding a
Pointer to the parent with the field name as key, forces the redirect
marker to the field name, runs the find under the class of the parent, wraps
the tagged results as the Connection with the 100 cap, and every node of
that Connection is a tagged find result whose id (when the result is an
object) is the global identifier computed from the class name and objectId
of that result. -/
theorem relation_resolver_shape
    (runFindFn : String → FindArgs → JValue → List JValue)
    (fieldName parentClassName parentObjectId : String) (args : FindArgs) :
    (∃ rel o,
      jlookup (relationResolve runFindFn fieldName parentClassName
          parentObjectId args).calledQuery "$relatedTo" = some rel ∧
      jlookup rel "key" = some (.str fieldName) ∧
      jlookup rel "object" = some o ∧
      jlookup o "__type" = some (.str "Pointer") ∧
      jlookup o "className" = some (.str parentClassName) ∧
      jlookup o "objectId" = some (.str parentObjectId)) ∧
    (relationResolve runFindFn fieldName parentClassName parentObjectId
        args).calledArgs.redirectClassNameForKey = some fieldName ∧
    (relationResolve runFindFn fieldName parentClassName parentObjectId
        args).calledClassName = parentClassName ∧
    (relationResolve runFindFn fieldName parentClassName parentObjectId
        args).connection =
      connectionResultsArray
        ((runFindFn parentClassName
            (relationResolve runFindFn fieldName parentClassName
                parentObjectId args).calledArgs
            (relationResolve runFindFn fieldName parentClassName
                parentObjectId args).calledQuery).map tagResultId)
        (relationResolve runFindFn fieldName parentClassName parentObjectId
            args).calledArgs 100 ∧
    (∀ node, node ∈ (relationResolve runFindFn fieldName parentClassName
        parentObjectId args).connection.nodes →
      ∃ r, r ∈ runFindFn parentClassName
          (relationResolve runFindFn fieldName parentClassName
              parentObjectId args).calledArgs
          (relationResolve runFindFn fieldName parentClassName
              parentObjectId args).calledQuery ∧
        node = tagResultId r ∧
        (∀ kvs, r = .obj kvs →
          jlookup node "id" =
            some (.str (getGloballyUniqueId (jgetStr r "className")
                                            (jgetStr r "objectId"))))) := by
  refine ⟨?_, ?_, ?_, ?_, ?_⟩
  · refine ⟨.obj [("object",
        .obj [("__type", .str "Pointer"),
              ("className", .str parentClassName),
              ("objectId", .str parentObjectId)]),
        ("key", .str fieldName)],
      .obj [("__type", .str "Pointer"),
            ("className", .str parentClassName),
            ("objectId", .str parentObjectId)], ?_, ?_, ?_, ?_, ?_, ?_⟩ <;>
      simp [relationResolve, relatedToQuery, jlookup, assocFind]
  · simp [relationResolve]
  · simp [relationResolve]
  · simp [relationResolve]
  · intro node hnode
    simp only [relationResolve, connectionResultsArray] at hnode
    have hsub := (List.take_sublist _ _).subset hnode
    rcases List.mem_map.mp hsub with ⟨r, hr, hrtag⟩
    refine ⟨r, by simpa [relationResolve] using hr, hrtag.symm, ?_⟩
    intro kvs hkvs
    subst hkvs
    rw [← hrtag]
    exact tagResultId_id kvs

/-- C4 (amended): a field named id or objectId maps to the non-nullable
GraphQLID in the input context whatever its declared kind; in the output
context this holds for every kind other than Relation and Pointer; in the
filter context it holds for every kind other than Pointer.  Quantified
over every behaviour of the collaborator scalar mappers. -/
theorem id_field_override (tp itp qtp : FieldDef → Option GQLType)
    (fieldName : String) (field : FieldDef)
    (hname : fieldName = "objectId" ∨ fieldName = "id") :
    (∃ d, graphQLInputField itp fieldName field = some d ∧
       d.gtype = some .nonNullID) ∧
    (field.kind ≠ "Relation" → field.kind ≠ "Pointer" →
       (graphQLField tp fieldName field).gtype = some .nonNullID) ∧
    (field.kind ≠ "Pointer" →
       ∃ d, graphQLQueryField qtp fieldName field = some d ∧
         d.gtype = some .nonNullID) := by
  have hid : handleIdField fieldName = some .nonNullID := by
    simp [handleIdField, hname]
  refine ⟨?_, ?_, ?_⟩
  · refine ⟨{ name := some fieldName
              gtype := some .nonNullID
              hasResolve := false
              description := some ("Setter for " ++ fieldName ++ " (" ++
                getFieldType field ++ ")") }, ?_, rfl⟩
    simp [graphQLInputField, hid]
  · intro h1 h2
    simp [graphQLField, hid, h1, h2]
  · intro h1
    refine ⟨{ name := some fieldName
              gtype := some .nonNullID
              hasResolve := false
              description := some ("Query for " ++ fieldName ++ " (" ++
                field.kind ++ ")") }, ?_, rfl⟩
    simp [graphQLQueryField, hid, h1]

/-- C4 witness: the concrete String-kind field named id maps to non-null
GraphQLID in the filter context. -/
theorem id_field_override_witness :
    ∃ d, graphQLQueryField (fun _ => none) "id"
        { kind := "String", targetClass := none } = some d ∧
      d.gtype = some .nonNullID :=
  (id_field_override (fun _ => none) (fun _ => none) (fun _ => none) "id"
    { kind := "String", targetClass := none } (Or.inr rfl)).2.2 (by decide)

/-- C4 counterexample: a Pointer-kind field literally named id, mapped in
the output context, gets the object type of the target class, not the
non-nullable opaque identifier type, so the claim is false as stated. -/
theorem id_field_override_counterexample :
    (graphQLField (fun _ => none) "id"
        { kind := "Pointer", targetClass := some "Bar" }).gtype =
      some (.objectTypeOf "Bar") ∧
    (graphQLField (fun _ => none) "id"
        { kind := "Pointer", targetClass := some "Bar" }).gtype ≠
      some .nonNullID := by
  constructor
  · rfl
  · decide

theorem assocFind_buildFieldsStep_other
    (mapper : String → FieldDef → Option GField) (fr : Bool)
    (init : List (String × GField)) (entry : String × FieldDef) (k : String)
    (h : entry.1 ≠ k) :
    assocFind (buildFieldsStep mapper fr init entry) k = assocFind init k := by
  unfold buildFieldsStep
  split
  · rfl
  · cases mapper entry.1 entry.2 with
    | none => rfl
    | some g => exact assocFind_assocSet_other _ _ _ _ (Ne.symm h)

theorem assocFind_foldl_not_mem
    (mapper : String → FieldDef → Option GField) (fr : Bool)
    (fields : List (String × FieldDef)) (init : List (String × GField))
    (k : String) (h : k ∉ fields.map Prod.fst) :
    assocFind (fields.foldl (buildFieldsStep mapper fr) init) k =
      assocFind init k := by
  induction fields generalizing init with
  | nil => rfl
  | cons hd tl ih =>
    simp only [List.map_cons, List.mem_cons] at h
    push_neg at h
    rw [List.foldl_cons, ih _ h.2]
    exact assocFind_buildFieldsStep_other mapper fr init hd k
      (fun he => h.1 he.symm)

theorem assocFind_foldl_buildFields
    (mapper : String → FieldDef → Option GField) (fr : Bool)
    (fields : List (String × FieldDef)) (init : List (String × GField))
    (k : String) (hnodup : (fields.map Prod.fst).Nodup) :
    assocFind (fields.foldl (buildFieldsStep mapper fr) init) k =
      match assocFind fields k with
      | some fd =>
        if fr ∧ k ∈ reservedFieldNames then assocFind init k
        else
          match mapper k fd with
          | some g => some g
          | none => assocFind init k
      | none => assocFind init k := by
  induction fields generalizing init with
  | nil => rfl
  | cons hd tl ih =>
    rw [List.map_cons, List.nodup_cons] at hnodup
    rw [List.foldl_cons]
    by_cases hk : hd.1 = k
    · subst hk
      rw [assocFind_foldl_not_mem _ _ _ _ _ hnodup.1]
      by_cases hc : fr = true ∧ hd.1 ∈ reservedFieldNames
      · simp [assocFind, buildFieldsStep, hc]
      · cases hg : mapper hd.1 hd.2 with
        | none => simp [assocFind, buildFieldsStep, hc, hg]
        | some g =>
          simp [assocFind, buildFieldsStep, hc, hg, assocFind_assocSet_same]
    · rw [ih _ hnodup.2]
      rw [assocFind_buildFieldsStep_other mapper fr init hd k hk]
      simp [assocFind, hk]

/-- What the spec says the add-input field set is, as a lookup function:
the client-correlation-token field is always present; reserved names are
filtered out; every other key follows the class field mapped via the
input context when the mapper does not omit it; and (as the source
actually behaves) the _User class additionally carries the synthetic
session-token field. -/
def addInputExpected (itp : FieldDef → Option GQLType) (className : String)
    (cls : ClassDef) (k : String) : Option GField :=
  if k = "clientMutationId" then some clientMutationIdField
  else if k ∈ reservedFieldNames then
    (if className = "_User" ∧ k = "sessionToken" then some sessionTokenField
     else none)
  else
    match assocFind cls.fields k with
    | some fd =>
      match graphQLInputField itp k fd with
      | some g => some g
      | none =>
        (if className = "_User" ∧ k = "sessionToken" then
          some sessionTokenField else none)
    | none =>
      (if className = "_User" ∧ k = "sessionToken" then
        some sessionTokenField else none)

theorem assocFind_userInitial (className k : String) :
    assocFind
      (if className = "_User" then [("sessionToken", sessionTokenField)]
       else []) k =
      (if className = "_User" ∧ k = "sessionToken" then some sessionTokenField
       else none) := by
  by_cases hu : className = "_User"
  · by_cases hs : k = "sessionToken"
    · simp [hu, hs, assocFind]
    · simp [hu, hs, assocFind, Ne.symm hs]
  · simp [hu, assocFind]

/-- C8 (amended): for every class present in the schema (with duplicate-free
field names) the add-input field set is exactly the class fields mapped
via the input context, with reserved names and omit-signal fields removed,
plus the client-correlation-token field — and, when the class is _User, the
synthetic session-token field as well (the source adds the session-token
field to every field set it builds for _User, not only to the object
type). -/
theorem addInput_fields_characterization (itp : FieldDef → Option GQLType)
    (schema : Schema) (className : String) (cls : ClassDef)
    (hcls : assocFind schema className = some cls)
    (hnodup : (cls.fields.map Prod.fst).Nodup) :
    ∃ m, addInputFields itp schema className = some m ∧
      ∀ k, assocFind m k = addInputExpected itp className cls k := by
  refine ⟨assocSet
      (cls.fields.foldl (buildFieldsStep (graphQLInputField itp) true)
        (if className = "_User" then [("sessionToken", sessionTokenField)]
         else []))
      "clientMutationId" clientMutationIdField, ?_, ?_⟩
  · simp [addInputFields, buildFields, hcls]
  · intro k
    by_cases hk : k = "clientMutationId"
    · subst hk
      rw [assocFind_assocSet_same]
      simp [addInputExpected]
    · rw [assocFind_assocSet_other _ _ _ _ hk,
        assocFind_foldl_buildFields _ _ _ _ _ hnodup]
      by_cases hr : k ∈ reservedFieldNames
      · cases hf : assocFind cls.fields k with
        | none => simp [addInputExpected, hk, hr, hf, assocFind_userInitial]
        | some fd => simp [addInputExpected, hk, hr, hf, assocFind_userInitial]
      · cases hf : assocFind cls.fields k with
        | none => simp [addInputExpected, hk, hr, hf, assocFind_userInitial]
        | some fd =>
          cases hg : graphQLInputField itp k fd with
          | none =>
            simp [addInputExpected, hk, hr, hf, hg, assocFind_userInitial]
          | some g =>
            simp [addInputExpected, hk, hr, hf, hg, assocFind_userInitial]

/-- A concrete collaborator scalar mapper used in witnesses. -/
def mapper0 : FieldDef → Option GQLType := fun fd => some (.scalarOf fd.kind)

/-- A concrete _User class with one String field. -/
def userCls : ClassDef :=
  { fields := [("name", { kind := "String", targetClass := none })] }

/-- A concrete schema holding only the _User class. -/
def userSchema : Schema := [("_User", userCls)]

/-- C8 witness: the characterization applied to the concrete _User schema
at the clientMutationId key. -/
theorem addInput_fields_characterization_witness :
    assocFind ((addInputFields mapper0 userSchema "_User").getD [])
        "clientMutationId" =
      addInputExpected mapper0 "_User" userCls "clientMutationId" := by
  obtain ⟨m, hm, hk⟩ := addInput_fields_characterization mapper0 userSchema
    "_User" userCls rfl (by decide)
  rw [hm]
  simpa using hk "clientMutationId"

/-- C8 counterexample: on the concrete _User schema the generated
add-input field set contains the synthetic sessionToken field, although
sessionToken is not a declared class field, not a reserved name and not
the correlation-token field — so the claim that the add-input consists of
the mapped class fields plus clientMutationId and nothing else (with the
session-token field belonging only to the object type) is false as
stated. -/
theorem addInput_sessionToken_counterexample :
    assocFind ((addInputFields mapper0 userSchema "_User").getD [])
        "sessionToken" = some sessionTokenField ∧
    assocFind userCls.fields "sessionToken" = none ∧
    "sessionToken" ∉ reservedFieldNames ∧
    "sessionToken" ≠ "clientMutationId" := by
  refine ⟨by decide, by decide, by decide, by decide⟩

/-- C9: a class name absent from the schema makes buildFields log the
diagnostic and yield the degenerate field set (the warning flag is set and
the result is none) instead of raising, and the compilation pass over any
class-name list still processes every class: it produces exactly one entry
per class name, including an entry for every other class. -/
theorem missing_class_degenerate (tp : FieldDef → Option GQLType)
    (schema : Schema) (classNames : List String) (cn : String)
    (hmem : cn ∈ classNames) (habs : assocFind schema cn = none) :
    graphQLConfigFields tp schema cn = (true, none) ∧
    (compilePass tp schema classNames).length = classNames.length ∧
    (∀ cn', cn' ∈ classNames →
      (cn', graphQLConfigFields tp schema cn') ∈
        compilePass tp schema classNames) := by
  refine ⟨?_, ?_, ?_⟩
  · simp [graphQLConfigFields, buildFields, habs]
  · simp [compilePass]
  · intro cn' h
    simp only [compilePass, List.mem_map]
    exact ⟨cn', h, rfl⟩

/-- C9 witness: compiling the list Foo, Missing against the schema that
only declares Foo degrades the Missing entry to a logged warning and an
empty field set. -/
theorem missing_class_degenerate_witness :
    graphQLConfigFields mapper0 fooSchema "Missing" = (true, none) :=
  (missing_class_degenerate mapper0 fooSchema ["Foo", "Missing"] "Missing"
    (by decide) (by decide)).1

/-- C10: an update or destroy input carrying both a (truthy) objectId and
an id raises no error: the objectId value addresses the object, the
objectId key is deleted while the id key stays, and update forwards the
leftover id inside the partial field set handed to rest.update; destroy
addresses its first storage call with the objectId value. -/
theorem both_ids_objectId_wins (b : Backend) (schema : Schema)
    (className : String) (input : InputObj) (cls : ClassDef) (vObj : JValue)
    (s : String) (hcls : assocFind schema className = some cls)
    (hobj : assocFind input "objectId" = some vObj)
    (htr : vObj.truthy = true)
    (hid : assocFind input "id" = some (.str s)) :
    getObjectId input = .ok (vObj, assocErase input "objectId") ∧
    assocFind (assocErase input "objectId") "id" = some (.str s) ∧
    (∃ tl, (updateResolve b schema className input).2 =
        .restUpdate className vObj
          (assocErase
            ((assocErase input "objectId").map fun kv =>
              (kv.1, tagValue (assocFind cls.fields kv.1) kv.2))
            "clientMutationId") :: tl ∧
      assocFind
        (assocErase
          ((assocErase input "objectId").map fun kv =>
            (kv.1, tagValue (assocFind cls.fields kv.1) kv.2))
          "clientMutationId") "id" = some (.str s)) ∧
    (∃ tl2, (destroyResolve b className input).2 =
        .runGetCall className vObj :: tl2) := by
  have h1 : lookupTruthy input "objectId" = true := by
    simp [lookupTruthy, hobj, htr]
  have hgo : getObjectId input = .ok (vObj, assocErase input "objectId") := by
    simp [getObjectId, h1, hobj]
  have hid1 : assocFind (assocErase input "objectId") "id" = some (.str s) := by
    rw [assocFind_assocErase_other _ _ _ (by decide)]
    exact hid
  have h2 : transformInput (assocErase input "objectId")
      (assocFind schema className) =
      .ok ((assocErase input "objectId").map fun kv =>
        (kv.1, tagValue (assocFind cls.fields kv.1) kv.2)) := by
    simp [transformInput, hcls]
  refine ⟨hgo, hid1, ?_, ?_⟩
  · refine ⟨(updateResolve b schema className input).2.tail, ?_, ?_⟩
    · cases hru : b.restUpdate className vObj
          (assocErase
            ((assocErase input "objectId").map fun kv =>
              (kv.1, tagValue (assocFind cls.fields kv.1) kv.2))
            "clientMutationId") with
      | error e => simp [updateResolve, hgo, h2, hru]
      | ok u =>
        cases hrg : b.runGet className vObj with
        | error e => simp [updateResolve, hgo, h2, hru, hrg]
        | ok o => simp [updateResolve, hgo, h2, hru, hrg]
    · rw [assocFind_assocErase_other _ _ _ (by decide),
        assocFind_map_tag, hid1]
      simp [tagValue_str]
  · refine ⟨(destroyResolve b className input).2.tail, ?_⟩
    cases hrg : b.runGet className vObj with
    | error e => simp [destroyResolve, hgo, hrg]
    | ok o =>
      cases hrd : b.restDel className vObj with
      | error e => simp [destroyResolve, hgo, hrg, hrd]
      | ok u => simp [destroyResolve, hgo, hrg, hrd]

/-- C10 witness: on a concrete input carrying both ids the objectId key is
deleted and the id key survives into the mutated input. -/
theorem both_ids_objectId_wins_witness :
    assocFind (assocErase [("id", JValue.str "Foo:xyz"),
        ("objectId", JValue.str "abc"), ("name", JValue.str "x")] "objectId")
      "id" = some (.str "Foo:xyz") :=
  (both_ids_objectId_wins witnessBackend fooSchema "Foo"
    [("id", .str "Foo:xyz"), ("objectId", .str "abc"), ("name", .str "x")]
    { fields := [("name", { kind := "String", targetClass := none })] }
    (.str "abc") "Foo:xyz" rfl rfl rfl rfl).2.1

/-- A concrete relation find returning one related Bar object. -/
def relWitnessFind : String → FindArgs → JValue → List JValue :=
  fun _ _ _ => [.obj [("className", .str "Bar"), ("objectId", .str "o1")]]

/-- Empty find arguments. -/
def emptyFindArgs : FindArgs :=
  { whereQ := none, first := none, last := none, after := none,
    before := none, redirectClassNameForKey := none }

/-- C7 witness: on the concrete relation find, the single connection node
is a tagged result whose id decodes from the own class name and
objectId. -/
theorem relation_resolver_shape_witness :
    ∃ r, r ∈ relWitnessFind "Foo"
        (relationResolve relWitnessFind "friends" "Foo" "p1"
            emptyFindArgs).calledArgs
        (relationResolve relWitnessFind "friends" "Foo" "p1"
            emptyFindArgs).calledQuery ∧
      tagResultId (.obj [("className", .str "Bar"),
        ("objectId", .str "o1")]) = tagResultId r ∧
      (∀ kvs, r = .obj kvs →
        jlookup (tagResultId (.obj [("className", .str "Bar"),
            ("objectId", .str "o1")])) "id" =
          some (.str (getGloballyUniqueId (jgetStr r "className")
                                          (jgetStr r "objectId")))) :=
  (relation_resolver_shape relWitnessFind "friends" "Foo" "p1"
      emptyFindArgs).2.2.2.2
    (tagResultId (.obj [("className", .str "Bar"), ("objectId", .str "o1")]))
    (by simp [relationResolve, connectionResultsArray, relWitnessFind,
        emptyFindArgs])
